import Mathlib

/-!
Shallow embedding of the todo-list application
(`public/assets/js`: `TodoItem.js`, `TodoValidator.js`, `TodoStorage.js`,
`TodoList.js`) and proofs about its spec.

JavaScript numbers carrying ids and timestamps are modelled as `Rat`
(`Date.now()` is an integer number of milliseconds; ids coming back from
JSON may be any number).  Wall-clock reads (`Date.now()`,
`new Date().toISOString()`) are passed in explicitly as `now` / `nowIso`
parameters.  DOM and notification side effects are modelled as returned
data: each controller operation returns the new collection, a `saved`
flag recording whether `saveTodos` was called, and the notification kind
it emitted (if any).
-/

/-- Whitespace as recognised by JavaScript `String.prototype.trim`
(WhiteSpace and LineTerminator code points). -/
def isJsWhitespace (c : Char) : Bool :=
  c == ' ' || c == '\t' || c == '\n' || c == '\r' ||
  c == '\x0b' || c == '\x0c' || c == '\u00a0' || c == '\ufeff' ||
  c == '\u1680' || c == '\u2000' || c == '\u2001' || c == '\u2002' ||
  c == '\u2003' || c == '\u2004' || c == '\u2005' || c == '\u2006' ||
  c == '\u2007' || c == '\u2008' || c == '\u2009' || c == '\u200a' ||
  c == '\u2028' || c == '\u2029' || c == '\u202f' || c == '\u205f' ||
  c == '\u3000'

/-- JavaScript `text.trim()`: drop leading and trailing whitespace. -/
def jsTrim (s : String) : String :=
  String.mk (((s.data.dropWhile isJsWhitespace).reverse.dropWhile isJsWhitespace).reverse)

/-- Result shape returned by every `TodoValidator` check:
`{ isValid, error }`, with `error: null` modelled as `none`. -/
structure VResult where
  isValid : Bool
  error : Option String
deriving Repr, DecidableEq

/-- `TodoValidator.MIN_LENGTH`. -/
def MIN_LENGTH : Nat := 1

/-- `TodoValidator.MAX_LENGTH`. -/
def MAX_LENGTH : Nat := 100

/-- `TodoValidator.validateText` (`TodoValidator.js` lines 13-41). -/
def validateText (text : String) : VResult :=
  let trimmedText := jsTrim text
  if trimmedText = "" then
    ⟨false, some "Please enter a task!"⟩
  else if trimmedText.length > MAX_LENGTH then
    ⟨false, some ("Task is too long! Maximum " ++ toString MAX_LENGTH ++ " characters.")⟩
  else if trimmedText.length < MIN_LENGTH then
    ⟨false, some "Task must have at least one character."⟩
  else
    ⟨true, none⟩

/-- JSON values, the image of `JSON.parse`.  (JSON cannot produce
`undefined`, so an absent object field models JS `undefined`.) -/
inductive Json where
  | null
  | bool (b : Bool)
  | num (q : Rat)
  | str (s : String)
  | arr (elems : List Json)
  | obj (fields : List (String × Json))

/-- Property access `j[key]` on a JSON value: `none` models JS
`undefined` (absent field, or access on a primitive/array).  Duplicate
keys follow `JSON.parse`: the last occurrence wins. -/
def Json.getField : Json → String → Option Json
  | .obj fields, key =>
      fields.foldl (fun acc kv => if kv.1 = key then some kv.2 else acc) none
  | _, _ => none

/-- A single todo item: fields of `TodoItem` (`TodoItem.js`). -/
structure TodoItem where
  id : Rat
  text : String
  completed : Bool
  createdAt : String
deriving Repr, DecidableEq

namespace TodoItem

/-- `new TodoItem(text)` as called from `TodoList.addTodo`:
`id = null || Date.now() = now`; the text is stored as passed,
untrimmed; `createdAt = new Date().toISOString()` is passed in as
`nowIso`. -/
def make (text : String) (now : Rat) (nowIso : String) : TodoItem :=
  { id := now, text := text, completed := false, createdAt := nowIso }

/-- `TodoItem.toggle`: flip `completed`. -/
def toggle (t : TodoItem) : TodoItem :=
  { t with completed := !t.completed }

/-- `TodoItem.updateText`: `this.text = newText.trim()`. -/
def updateText (t : TodoItem) (newText : String) : TodoItem :=
  { t with text := jsTrim newText }

/-- `TodoItem.toJSON`: plain object with the four fields. -/
def toJSON (t : TodoItem) : Json :=
  .obj [("id", .num t.id), ("text", .str t.text),
        ("completed", .bool t.completed), ("createdAt", .str t.createdAt)]

/-- `data.id` coerced to a number for the constructor; an absent or
non-numeric field is JS `undefined`-like and is modelled by `0`, which
is falsy exactly as `undefined` is in `id || Date.now()`. -/
def getIdD (data : Json) : Rat :=
  match data.getField "id" with
  | some (.num q) => q
  | _ => 0

/-- `data.text` as a string; absent or non-string fields only occur off
the validated import path and are defaulted. -/
def getTextD (data : Json) : String :=
  match data.getField "text" with
  | some (.str s) => s
  | _ => ""

/-- `data.completed` as a boolean, defaulted like `getTextD`. -/
def getCompletedD (data : Json) : Bool :=
  match data.getField "completed" with
  | some (.bool b) => b
  | _ => false

/-- `data.createdAt` as a string, defaulted like `getTextD`. -/
def getCreatedAtD (data : Json) : String :=
  match data.getField "createdAt" with
  | some (.str s) => s
  | _ => ""

/-- `TodoItem.fromJSON`: `new TodoItem(data.text, data.id)` — whose
constructor computes `this.id = id || Date.now()`, the fallback firing
when `data.id` is falsy — then overwrites `completed` and `createdAt`
from the record. -/
def fromJSON (now : Rat) (data : Json) : TodoItem :=
  { id := if getIdD data = 0 then now else getIdD data
  , text := getTextD data
  , completed := getCompletedD data
  , createdAt := getCreatedAtD data }

end TodoItem

/-- `TodoValidator.validateId`: a falsy id, a non-number `typeof`, or
`id <= 0` each makes the id invalid.  A number `q` is falsy exactly when
`q = 0`, which `q ≤ 0` subsumes. -/
def validateId (id : Json) : VResult :=
  match id with
  | .num q => if q ≤ 0 then ⟨false, some "Invalid todo ID"⟩ else ⟨true, none⟩
  | _ => ⟨false, some "Invalid todo ID"⟩

/-- The list of names whose presence `validateTodoObject` requires,
in source order. -/
def requiredFields : List String := ["id", "text", "completed", "createdAt"]

/-- First required field missing from the object, if any
(the `for (const field of requiredFields)` loop). -/
def firstMissing (j : Json) : Option String :=
  requiredFields.find? (fun f => (j.getField f).isNone)

/-- `TodoValidator.validateTodoObject` (`TodoValidator.js` lines 67-114).
`isValidDate` abstracts `new Date(s)` validity, which has no pure
embedding.  The `Except.error` outcome models the JavaScript `TypeError`
thrown by `todo.text.trim()` when `text` is present but not a string;
callers sit inside `try`/`catch` blocks that absorb it.

Case analysis on the receiver mirrors the falsiness and `typeof` guard:
`null` and every primitive are rejected up front (`null`, `false` and
the empty string by falsiness, the rest by `typeof`); arrays are objects
and truthy, so they reach the field-presence loop and fail the `id`
presence test. -/
def validateTodoObject (isValidDate : String → Bool) (todo : Json) : Except Unit VResult :=
  match todo with
  | .arr _ => .ok ⟨false, some "Missing required field: id"⟩
  | .obj _ =>
    match firstMissing todo with
    | some f => .ok ⟨false, some ("Missing required field: " ++ f)⟩
    | none =>
      match todo.getField "text" with
      | some (.str s) =>
        let textValidation := validateText s
        if textValidation.isValid = false then .ok textValidation
        else
          let idValidation := validateId ((todo.getField "id").getD .null)
          if idValidation.isValid = false then .ok idValidation
          else
            match todo.getField "completed" with
            | some (.bool _) =>
              match todo.getField "createdAt" with
              | some (.str d) =>
                if isValidDate d then .ok ⟨true, none⟩
                else .ok ⟨false, some "Invalid createdAt date"⟩
              | _ => .ok ⟨false, some "Invalid createdAt date"⟩
            | _ => .ok ⟨false, some "Completed field must be a boolean"⟩
      | _ => .error ()
  | _ => .ok ⟨false, some "Invalid todo object"⟩

/-- A record passes the import loop iff `validateTodoObject` neither
throws nor reports invalid; both failure modes reach the same `catch`. -/
def recordOk (isValidDate : String → Bool) (j : Json) : Bool :=
  match validateTodoObject isValidDate j with
  | .ok v => v.isValid
  | .error _ => false

/-- Notification kinds emitted through `NotificationManager`. -/
inductive NotifKind where
  | success
  | error
  | info
deriving Repr, DecidableEq

/-- Observable outcome of one `TodoList` controller operation: the
collection afterwards, whether `saveTodos` ran, and the notification
kind shown (if any). -/
structure OpResult where
  todos : List TodoItem
  saved : Bool
  notif : Option NotifKind
deriving Repr, DecidableEq

/-- `TodoList.addTodo` (`TodoList.js` lines 153-175) on input `text`:
validate, abort with an error notification on failure, otherwise push
`new TodoItem(text)`, save and notify success. -/
def addTodo (todos : List TodoItem) (text : String) (now : Rat) (nowIso : String) : OpResult :=
  let validation := validateText text
  if validation.isValid = false then
    ⟨todos, false, some .error⟩
  else
    ⟨todos ++ [TodoItem.make text now nowIso], true, some .success⟩

/-- `this.todos.find(todo => todo.id === id)` followed by an in-place
`todo.toggle()`: flip `completed` on the first entry with the given id;
the returned flag records whether a match was found. -/
def toggleTodoList : List TodoItem → Rat → List TodoItem × Bool
  | [], _ => ([], false)
  | t :: ts, id =>
    if t.id = id then (TodoItem.toggle t :: ts, true)
    else
      let r := toggleTodoList ts id
      (t :: r.1, r.2)

/-- `TodoList.toggleTodo` (`TodoList.js` lines 181-188): toggle when the
id is found, then save; a miss is a silent no-op. -/
def toggleTodo (todos : List TodoItem) (id : Rat) : OpResult :=
  let r := toggleTodoList todos id
  ⟨r.1, r.2, none⟩

/-- `findTodoIndexById` + `splice(index, 1)`: remove the first entry
with the given id; the flag records whether a match was found. -/
def deleteTodoList : List TodoItem → Rat → List TodoItem × Bool
  | [], _ => ([], false)
  | t :: ts, id =>
    if t.id = id then (ts, true)
    else
      let r := deleteTodoList ts id
      (t :: r.1, r.2)

/-- `TodoList.deleteTodo` (`TodoList.js` lines 194-202): splice out the
first match, save, notify info; a miss is a silent no-op. -/
def deleteTodo (todos : List TodoItem) (id : Rat) : OpResult :=
  let r := deleteTodoList todos id
  ⟨r.1, r.2, if r.2 then some .info else none⟩

/-- `findTodoById` + in-place `todo.updateText(newText)`: replace the
text (trimmed) on the first entry with the given id. -/
def updateTodoList : List TodoItem → Rat → String → List TodoItem × Bool
  | [], _, _ => ([], false)
  | t :: ts, id, newText =>
    if t.id = id then (t.updateText newText :: ts, true)
    else
      let r := updateTodoList ts id newText
      (t :: r.1, r.2)

/-- `TodoList.updateTodo` (`TodoList.js` lines 209-224): validate first
(error notification and `false` on failure); then update the first match
and return `true`, or return `false` silently when the id is absent.
The second component is the value the method returns. -/
def updateTodo (todos : List TodoItem) (id : Rat) (newText : String) : OpResult × Bool :=
  let validation := validateText newText
  if validation.isValid = false then
    (⟨todos, false, some .error⟩, false)
  else
    let r := updateTodoList todos id newText
    if r.2 then (⟨r.1, true, none⟩, true) else (⟨todos, false, none⟩, false)

/-- `TodoList.getCompletedTodos`. -/
def getCompletedTodos (todos : List TodoItem) : List TodoItem :=
  todos.filter (fun todo => todo.completed)

/-- `TodoList.getIncompleteTodos`. -/
def getIncompleteTodos (todos : List TodoItem) : List TodoItem :=
  todos.filter (fun todo => !todo.completed)

/-- Statistics object returned by `TodoList.getStats`. -/
structure Stats where
  total : Nat
  completed : Nat
  incomplete : Nat
  completionRate : Rat
deriving Repr, DecidableEq

/-- `TodoList.getStats` (`TodoList.js` lines 272-283); the JS floating
division is modelled exactly over `Rat`. -/
def getStats (todos : List TodoItem) : Stats :=
  let total := todos.length
  let completed := (getCompletedTodos todos).length
  let incomplete := (getIncompleteTodos todos).length
  ⟨total, completed, incomplete,
    if total > 0 then ((completed : Rat) / (total : Rat)) * 100 else 0⟩

/-- `TodoList.importTodos` (`TodoList.js` lines 363-387).  `parsed` is
the outcome of `JSON.parse(jsonString)`: `none` when it throws.  The
whole body sits in one `try`/`catch`: a parse failure, a non-array
value, or any record failing (or throwing inside) `validateTodoObject`
lands in `catch`, which notifies an error and returns `false` with the
collection untouched.  Otherwise the collection is replaced wholesale by
the mapped records, saved, and success is notified. -/
def importTodos (todos : List TodoItem) (isValidDate : String → Bool)
    (parsed : Option Json) (now : Rat) : OpResult × Bool :=
  match parsed with
  | none => (⟨todos, false, some .error⟩, false)
  | some j =>
    match j with
    | .arr todoData =>
      if todoData.all (recordOk isValidDate) then
        (⟨todoData.map (TodoItem.fromJSON now), true, some .success⟩, true)
      else
        (⟨todos, false, some .error⟩, false)
    | _ => (⟨todos, false, some .error⟩, false)

/-- The callback body of the `map` inside `TodoStorage.loadTodos`:
`data.text !== undefined ? data : null`.  On `null` the access
`data.text` throws a `TypeError` (modelled `Except.error`), which the
surrounding `try`/`catch` turns into an empty result; on primitives and
arrays `data.text` is `undefined`, so the record maps to `null` and is
dropped by `.filter(Boolean)`. -/
def keepRecord : Json → Except Unit Bool
  | .null => .error ()
  | .obj fields => .ok ((Json.obj fields).getField "text").isSome
  | _ => .ok false

/-- `keepRecord` does not throw on this record. -/
def keepRecordOk (j : Json) : Bool :=
  match keepRecord j with
  | .ok _ => true
  | .error _ => false

/-- The kept/dropped verdict of `keepRecord` (meaningful when it does
not throw). -/
def keepRecordVal (j : Json) : Bool :=
  match keepRecord j with
  | .ok b => b
  | .error _ => false

/-- `TodoStorage.loadTodos` (`TodoStorage.js` lines 26-45), returning
the raw kept records.  `stored` is the result of `localStorage.getItem`
(`none` when the key is absent); `parse` abstracts `JSON.parse`, `none`
when it throws.  `!storedData` is also true of the empty string.  A
non-array parse has no `.map`, so it throws and the `catch` returns
`[]`; likewise when any element makes the callback throw. -/
def loadTodos (parse : String → Option Json) (stored : Option String) : List Json :=
  match stored with
  | none => []
  | some s =>
    if s = "" then []
    else
      match parse s with
      | none => []
      | some (.arr todoData) =>
        if todoData.all keepRecordOk then todoData.filter keepRecordVal
        else []
      | some _ => []

/-- A string has length zero iff it is the empty string. -/
theorem string_length_eq_zero (s : String) : s.length = 0 ↔ s = "" := by
  cases s with
  | mk l =>
    cases l with
    | nil => simp [String.length]
    | cons c cs =>
      simp only [String.length, List.length_cons]
      constructor
      · intro h
        omega
      · intro h
        have hd : (String.mk (c :: cs)).data = ("" : String).data := by rw [h]
        simp at hd

/-- C3: `validateText t` reports valid iff the length of the trimmed
input is
between 1 and 100 inclusive (so trimmed length exactly 100 is valid),
and any input trimming to the empty string yields the "Please enter a
task!" error. -/
theorem validateText_valid_iff (t : String) :
    ((validateText t).isValid = true ↔
      1 ≤ (jsTrim t).length ∧ (jsTrim t).length ≤ 100) ∧
    ((jsTrim t).length = 0 → validateText t = ⟨false, some "Please enter a task!"⟩) := by
  have hz := string_length_eq_zero (jsTrim t)
  simp only [validateText, MAX_LENGTH, MIN_LENGTH]
  split_ifs with h1 h2 h3
  · constructor
    · constructor
      · intro h
        simp at h
      · intro h
        have : (jsTrim t).length = 0 := hz.mpr h1
        omega
    · intro _
      rfl
  · constructor
    · constructor
      · intro h
        simp at h
      · intro h
        omega
    · intro h
      exact absurd (hz.mp h) h1
  · exfalso
    have : (jsTrim t).length = 0 := by omega
    exact h1 (hz.mp this)
  · constructor
    · constructor
      · intro _
        omega
      · intro _
        rfl
    · intro h
      exact absurd (hz.mp h) h1

/-- Witness for C3 at a whitespace-only input. -/
theorem validateText_valid_iff_witness :
    validateText " \t\n " = ⟨false, some "Please enter a task!"⟩ :=
  (validateText_valid_iff " \t\n ").2 (by decide)

/-- C4: when validation fails, `addTodo` leaves the collection
unchanged, performs no save, and shows an error notification. -/
theorem addTodo_invalid_noop (todos : List TodoItem) (text : String) (now : Rat) (nowIso : String)
    (h : (validateText text).isValid = false) :
    addTodo todos text now nowIso = ⟨todos, false, some .error⟩ := by
  simp [addTodo, h]

/-- Witness for C4 at a 101-character input. -/
theorem addTodo_invalid_noop_witness :
    addTodo [] (String.mk (List.replicate 101 'a')) 1 "t" = ⟨[], false, some NotifKind.error⟩ :=
  addTodo_invalid_noop [] (String.mk (List.replicate 101 'a')) 1 "t" (by decide)

/-- C2 (code bug): `addTodo` on `"  Buy milk  "` succeeds but stores the
raw, untrimmed text — not the trimmed `"Buy milk"` that the spec and the
test in the repository (`should trim whitespace from input`) require. -/
theorem addTodo_stores_raw_untrimmed :
    (addTodo [] "  Buy milk  " 5 "2024-01-01T00:00:00.000Z").todos.map TodoItem.text
        = ["  Buy milk  "] ∧
    jsTrim "  Buy milk  " = "Buy milk" := by decide

/-- C5 (counterexample): two `addTodo` calls in the same millisecond
(`Date.now()` returning 5 both times) produce two tasks with the same
id, refuting strict monotonicity and uniqueness. -/
theorem addTodo_same_tick_shared_id :
    ((addTodo (addTodo [] "a" 5 "x").todos "b" 5 "x").todos.map TodoItem.id) = [5, 5] ∧
    ¬ ((addTodo (addTodo [] "a" 5 "x").todos "b" 5 "x").todos.map TodoItem.id).Nodup := by
  decide

/-- C5 (amended): the id of a task is its creation timestamp, so of two
tasks created by successive `addTodo` calls with strictly increasing
`Date.now()` readings, the later one has the strictly greater id;
within the same millisecond the ids coincide. -/
theorem addTodo_id_strictMono (todos : List TodoItem) (s1 s2 i1 i2 : String) (n1 n2 : Rat)
    (h1 : (validateText s1).isValid = true) (h2 : (validateText s2).isValid = true)
    (hlt : n1 < n2) :
    (addTodo (addTodo todos s1 n1 i1).todos s2 n2 i2).todos
        = todos ++ [TodoItem.make s1 n1 i1, TodoItem.make s2 n2 i2] ∧
    (TodoItem.make s1 n1 i1).id < (TodoItem.make s2 n2 i2).id := by
  constructor
  · simp [addTodo, h1, h2]
  · simpa [TodoItem.make] using hlt

/-- Witness for the amended C5 at timestamps 1 < 2. -/
theorem addTodo_id_strictMono_witness :
    (addTodo (addTodo [] "a" 1 "x").todos "b" 2 "y").todos
        = [] ++ [TodoItem.make "a" 1 "x", TodoItem.make "b" 2 "y"] ∧
    (TodoItem.make "a" 1 "x").id < (TodoItem.make "b" 2 "y").id :=
  addTodo_id_strictMono [] "a" "b" "x" "y" 1 2 (by decide) (by decide) (by decide)

/-- C6 (counterexample): a task whose id is `0` does not survive the
round trip — `fromJSON` hits the `data.id || Date.now()` fallback and
recomputes the id from the clock (here 7). -/
theorem fromJSON_toJSON_zero_id_recomputed :
    TodoItem.fromJSON 7 (TodoItem.toJSON ⟨0, "a", false, "d"⟩) ≠ ⟨0, "a", false, "d"⟩ := by
  decide

/-- C6 (amended): for every task whose id is nonzero (JS-truthy — all
ids the application itself creates are positive timestamps), the round
trip reconstructs all four fields exactly. -/
theorem fromJSON_toJSON_roundtrip (t : TodoItem) (now : Rat) (h : t.id ≠ 0) :
    TodoItem.fromJSON now (TodoItem.toJSON t) = t := by
  have he : TodoItem.fromJSON now (TodoItem.toJSON t)
      = ⟨if t.id = 0 then now else t.id, t.text, t.completed, t.createdAt⟩ := rfl
  rw [he, if_neg h]

/-- Witness for the amended C6 at a concrete task with id 5. -/
theorem fromJSON_toJSON_roundtrip_witness :
    TodoItem.fromJSON 9 (TodoItem.toJSON ⟨5, "a", false, "d"⟩) = ⟨5, "a", false, "d"⟩ :=
  fromJSON_toJSON_roundtrip ⟨5, "a", false, "d"⟩ 9 (by decide)

/-- A toggle on an id absent from the collection finds nothing and
changes nothing. -/
theorem toggleTodoList_not_mem (todos : List TodoItem) (id : Rat)
    (h : id ∉ todos.map TodoItem.id) : toggleTodoList todos id = (todos, false) := by
  induction todos with
  | nil => rfl
  | cons t ts ih =>
    simp only [List.map_cons, List.mem_cons, not_or] at h
    have hne : ¬ t.id = id := fun e => h.1 e.symm
    simp [toggleTodoList, hne, ih h.2]

/-- A toggle flips the first entry carrying the id and keeps the rest. -/
theorem toggleTodoList_found (pre : List TodoItem) (t : TodoItem) (post : List TodoItem)
    (id : Rat) (hpre : ∀ u ∈ pre, u.id ≠ id) (ht : t.id = id) :
    toggleTodoList (pre ++ t :: post) id = (pre ++ TodoItem.toggle t :: post, true) := by
  induction pre with
  | nil => simp [toggleTodoList, ht]
  | cons u us ih =>
    have hu : ¬ u.id = id := hpre u (by simp)
    have hrec := ih (fun v hv => hpre v (by simp [hv]))
    show toggleTodoList (u :: (us ++ t :: post)) id
        = (u :: (us ++ TodoItem.toggle t :: post), true)
    simp [toggleTodoList, hu, hrec]

/-- A delete on an absent id finds nothing and changes nothing. -/
theorem deleteTodoList_not_mem (todos : List TodoItem) (id : Rat)
    (h : id ∉ todos.map TodoItem.id) : deleteTodoList todos id = (todos, false) := by
  induction todos with
  | nil => rfl
  | cons t ts ih =>
    simp only [List.map_cons, List.mem_cons, not_or] at h
    have hne : ¬ t.id = id := fun e => h.1 e.symm
    simp [deleteTodoList, hne, ih h.2]

/-- A delete removes exactly the first entry carrying the id. -/
theorem deleteTodoList_found (pre : List TodoItem) (t : TodoItem) (post : List TodoItem)
    (id : Rat) (hpre : ∀ u ∈ pre, u.id ≠ id) (ht : t.id = id) :
    deleteTodoList (pre ++ t :: post) id = (pre ++ post, true) := by
  induction pre with
  | nil => simp [deleteTodoList, ht]
  | cons u us ih =>
    have hu : ¬ u.id = id := hpre u (by simp)
    have hrec := ih (fun v hv => hpre v (by simp [hv]))
    show deleteTodoList (u :: (us ++ t :: post)) id = (u :: (us ++ post), true)
    simp [deleteTodoList, hu, hrec]

/-- C7: on an absent id both `toggleTodo` and `deleteTodo` are silent
no-ops (collection unchanged, nothing saved, no notification); on a
present id, `toggleTodo` flips the `completed` flag on the first
matching entry
flag and `deleteTodo` removes the first matching entry. -/
theorem toggle_delete_spec (todos : List TodoItem) (id : Rat) :
    (id ∉ todos.map TodoItem.id →
      toggleTodo todos id = ⟨todos, false, none⟩ ∧
      deleteTodo todos id = ⟨todos, false, none⟩) ∧
    (∀ pre t post, todos = pre ++ t :: post → (∀ u ∈ pre, u.id ≠ id) → t.id = id →
      toggleTodo todos id = ⟨pre ++ TodoItem.toggle t :: post, true, none⟩ ∧
      deleteTodo todos id = ⟨pre ++ post, true, some .info⟩) := by
  constructor
  · intro h
    constructor
    · simp [toggleTodo, toggleTodoList_not_mem todos id h]
    · simp [deleteTodo, deleteTodoList_not_mem todos id h]
  · rintro pre t post rfl hpre ht
    constructor
    · simp [toggleTodo, toggleTodoList_found pre t post id hpre ht]
    · simp [deleteTodo, deleteTodoList_found pre t post id hpre ht]

/-- Witness for C7: toggling and deleting id 2 in a collection holding
only id 1 leaves it untouched. -/
theorem toggle_delete_spec_witness :
    toggleTodo [⟨1, "a", false, "d"⟩] 2 = ⟨[⟨1, "a", false, "d"⟩], false, none⟩ ∧
    deleteTodo [⟨1, "a", false, "d"⟩] 2 = ⟨[⟨1, "a", false, "d"⟩], false, none⟩ :=
  (toggle_delete_spec [⟨1, "a", false, "d"⟩] 2).1 (by decide)

/-- The completed/incomplete filters partition the collection. -/
theorem length_filter_partition (todos : List TodoItem) :
    (getCompletedTodos todos).length + (getIncompleteTodos todos).length = todos.length := by
  induction todos with
  | nil => rfl
  | cons t ts ih =>
    simp only [getCompletedTodos, getIncompleteTodos, List.filter_cons] at *
    cases h : t.completed <;> simp [h] <;> omega

/-- C8: the statistics satisfy `completed + incomplete = total`, the
completion rate is `completed/total*100` when `total > 0`, and `0` when
`total = 0`. -/
theorem getStats_spec (todos : List TodoItem) :
    (getStats todos).completed + (getStats todos).incomplete = (getStats todos).total ∧
    ((getStats todos).total > 0 →
      (getStats todos).completionRate
        = ((getStats todos).completed : Rat) / ((getStats todos).total : Rat) * 100) ∧
    ((getStats todos).total = 0 → (getStats todos).completionRate = 0) := by
  refine ⟨length_filter_partition todos, ?_, ?_⟩
  · intro h
    simp only [getStats] at h ⊢
    rw [if_pos h]
  · intro h
    simp only [getStats] at h ⊢
    rw [if_neg (by omega)]

/-- Witness for C8 on a one-element, all-completed collection. -/
theorem getStats_spec_witness :
    (getStats [⟨1, "a", true, "d"⟩]).completionRate
      = ((getStats [⟨1, "a", true, "d"⟩]).completed : Rat)
          / ((getStats [⟨1, "a", true, "d"⟩]).total : Rat) * 100 :=
  (getStats_spec [⟨1, "a", true, "d"⟩]).2.1 (by decide)

/-- An update on an absent id finds nothing and changes nothing. -/
theorem updateTodoList_not_mem (todos : List TodoItem) (id : Rat) (newText : String)
    (h : id ∉ todos.map TodoItem.id) : updateTodoList todos id newText = (todos, false) := by
  induction todos with
  | nil => rfl
  | cons t ts ih =>
    simp only [List.map_cons, List.mem_cons, not_or] at h
    have hne : ¬ t.id = id := fun e => h.1 e.symm
    simp [updateTodoList, hne, ih h.2]

/-- C10: with valid replacement text and an absent id, `updateTodo`
returns `false`, changes nothing, saves nothing and shows no
notification; a validation failure also returns `false` but is
distinguishable because it shows an error notification. -/
theorem updateTodo_absent_silent (todos : List TodoItem) (id : Rat) (newText : String)
    (hv : (validateText newText).isValid = true) (habs : id ∉ todos.map TodoItem.id) :
    updateTodo todos id newText = (⟨todos, false, none⟩, false) ∧
    (∀ badText, (validateText badText).isValid = false →
      updateTodo todos id badText = (⟨todos, false, some .error⟩, false)) := by
  constructor
  · simp [updateTodo, hv, updateTodoList_not_mem todos id newText habs]
  · intro badText hb
    simp [updateTodo, hb]

/-- Witness for C10: valid text `"b"`, collection holding only id 1,
update of id 2. -/
theorem updateTodo_absent_silent_witness :
    updateTodo [⟨1, "a", false, "d"⟩] 2 "b" = (⟨[⟨1, "a", false, "d"⟩], false, none⟩, false) :=
  (updateTodo_absent_silent [⟨1, "a", false, "d"⟩] 2 "b" (by decide) (by decide)).1

/-- C1: `importTodos` is all-or-nothing.  If `JSON.parse` fails
(`parsed = none`), the parsed value is not an array, or any array
element fails `validateTodoObject`, the call returns `false` with the
collection exactly as before, no save and an error notification;
otherwise it replaces the whole collection by the imported records,
saves, notifies success and returns `true`. -/
theorem importTodos_all_or_nothing (todos : List TodoItem) (isValidDate : String → Bool)
    (parsed : Option Json) (now : Rat) :
    ((parsed = none ∨ (∀ rs, parsed ≠ some (Json.arr rs)) ∨
        (∃ rs, parsed = some (Json.arr rs) ∧ ∃ r ∈ rs, recordOk isValidDate r = false)) →
      importTodos todos isValidDate parsed now = (⟨todos, false, some .error⟩, false)) ∧
    (∀ rs, parsed = some (Json.arr rs) → (∀ r ∈ rs, recordOk isValidDate r = true) →
      importTodos todos isValidDate parsed now
        = (⟨rs.map (TodoItem.fromJSON now), true, some .success⟩, true)) := by
  constructor
  · rintro (rfl | hna | ⟨rs, rfl, r, hr, hbad⟩)
    · rfl
    · match parsed with
      | none => rfl
      | some .null => rfl
      | some (.bool b) => rfl
      | some (.num q) => rfl
      | some (.str s) => rfl
      | some (.obj fs) => rfl
      | some (.arr rs) => exact absurd rfl (hna rs)
    · have hall : rs.all (recordOk isValidDate) = false := by
        by_cases hc : rs.all (recordOk isValidDate) = true
        · exact absurd (List.all_eq_true.mp hc r hr) (by simp [hbad])
        · simpa using hc
      simp [importTodos, hall]
  · rintro rs rfl hall
    simp [importTodos, List.all_eq_true.mpr hall]

/-- Witness for C1: an array holding the non-object record `3` is
rejected wholesale. -/
theorem importTodos_all_or_nothing_witness :
    importTodos [] (fun _ => true) (some (Json.arr [Json.num 3])) 7
      = (⟨[], false, some NotifKind.error⟩, false) :=
  (importTodos_all_or_nothing [] (fun _ => true) (some (Json.arr [Json.num 3])) 7).1
    (Or.inr (Or.inr ⟨[Json.num 3], rfl, Json.num 3, by simp, rfl⟩))

/-- `data.text !== undefined` as a predicate on a record: true exactly
for objects carrying a `text` field. -/
def hasTextField (j : Json) : Bool :=
  match j with
  | .obj fields => ((Json.obj fields).getField "text").isSome
  | _ => false

/-- Only the `null` record makes the load callback throw. -/
theorem keepRecordOk_of_ne_null (x : Json) (h : x ≠ Json.null) : keepRecordOk x = true := by
  cases x with
  | null => exact absurd rfl h
  | bool b => rfl
  | num q => rfl
  | str s => rfl
  | arr xs => rfl
  | obj fields => rfl

/-- When it does not throw, the load callback keeps exactly the
text-bearing records. -/
theorem keepRecordVal_eq_hasTextField (x : Json) : keepRecordVal x = hasTextField x := by
  cases x with
  | null => rfl
  | bool b => rfl
  | num q => rfl
  | str s => rfl
  | arr xs => rfl
  | obj fields => rfl

/-- C9 (counterexample): a stored array containing a JSON `null` next
to a text-bearing record makes the whole load return `[]` — the
text-bearing record does not pass through, because `null.text` throws
and the `catch` absorbs the entire result. -/
theorem loadTodos_null_element_drops_all :
    loadTodos (fun _ => some (Json.arr [Json.null, Json.obj [("text", Json.str "a")]]))
        (some "x") = [] ∧
    hasTextField (Json.obj [("text", Json.str "a")]) = true ∧
    Json.obj [("text", Json.str "a")]
      ∉ loadTodos (fun _ => some (Json.arr [Json.null, Json.obj [("text", Json.str "a")]]))
          (some "x") := by
  refine ⟨rfl, rfl, ?_⟩
  have he : loadTodos (fun _ => some (Json.arr [Json.null, Json.obj [("text", Json.str "a")]]))
      (some "x") = ([] : List Json) := rfl
  rw [he]
  exact List.not_mem_nil _

/-- C9 (amended): the load returns `[]` when the key is absent, when
the stored string is empty or does not parse, and when it parses to a
non-array; when it parses to an array free of `null` elements, records
lacking a `text` field are filtered out and text-bearing records pass
through unvalidated (an array containing `null` instead yields `[]`, as
the counterexample shows). -/
theorem loadTodos_spec (parse : String → Option Json) (stored : Option String) :
    (stored = none → loadTodos parse stored = []) ∧
    (∀ s, stored = some s → (s = "" ∨ parse s = none) → loadTodos parse stored = []) ∧
    (∀ s j, stored = some s → s ≠ "" → parse s = some j → (∀ xs, j ≠ Json.arr xs) →
      loadTodos parse stored = []) ∧
    (∀ s xs, stored = some s → s ≠ "" → parse s = some (Json.arr xs) → Json.null ∉ xs →
      loadTodos parse stored = xs.filter hasTextField) := by
  refine ⟨?_, ?_, ?_, ?_⟩
  · rintro rfl
    rfl
  · rintro s rfl (rfl | hp)
    · rfl
    · by_cases hs : s = "" <;> simp [loadTodos, hs, hp]
  · rintro s j rfl hs hp hnarr
    cases j with
    | arr xs => exact absurd rfl (hnarr xs)
    | null => simp [loadTodos, hs, hp]
    | bool b => simp [loadTodos, hs, hp]
    | num q => simp [loadTodos, hs, hp]
    | str s2 => simp [loadTodos, hs, hp]
    | obj fields => simp [loadTodos, hs, hp]
  · rintro s xs rfl hs hp hnull
    have hok : xs.all keepRecordOk = true :=
      List.all_eq_true.mpr (fun x hx => keepRecordOk_of_ne_null x (fun e => hnull (e ▸ hx)))
    have hv : keepRecordVal = hasTextField := funext keepRecordVal_eq_hasTextField
    simp [loadTodos, hs, hp, hok, hv]

/-- Witness for the amended C9: an array of a number and a text-bearing
object loads as just the object. -/
theorem loadTodos_spec_witness :
    loadTodos (fun _ => some (Json.arr [Json.num 3, Json.obj [("text", Json.str "a")]]))
        (some "x")
      = [Json.num 3, Json.obj [("text", Json.str "a")]].filter hasTextField :=
  ((loadTodos_spec (fun _ => some (Json.arr [Json.num 3, Json.obj [("text", Json.str "a")]]))
      (some "x")).2.2.2 "x" [Json.num 3, Json.obj [("text", Json.str "a")]]
    rfl (by simp) rfl (by simp))
